import Mathlib

/-!
Shallow embedding of the account-marketplace server (Express + Drizzle/Postgres
backend, current entry point with the reserve / verify-payment / withdrawals
endpoints, plus the Telegram-bot flows that drive it).

The persisted state (users, accounts, orders, withdrawals tables) is a record
of lists; each HTTP endpoint that the claims mention becomes a function on
that state.  A `db.transaction` in the source is one atomic Lean function
(Postgres serializes it); the deferred `setTimeout` bodies become separate
functions applied to a later state.  Statuses are plain strings, exactly as
in the source, because the PUT /orders/:id endpoint accepts an arbitrary
status string from the request body.  Monetary amounts are integers.
-/

structure User where
  id : Nat
  telegram_user_id : String
  balance : Int
  deriving Repr, DecidableEq

structure Account where
  id : Nat
  owner_id : Nat
  price : Int
  status : String
  created_at : Nat
  deriving Repr, DecidableEq

structure Order where
  id : Nat
  buyer_id : Nat
  account_id : Nat
  amount : Int
  receipt_no : String
  status : String
  deriving Repr, DecidableEq

structure Withdrawal where
  user_id : Nat
  amount : Int
  status : String
  deriving Repr, DecidableEq

structure DB where
  users : List User
  accounts : List Account
  orders : List Order
  withdrawals : List Withdrawal
  deriving Repr, DecidableEq

/-- Typed rendering of the error responses the endpoints produce
(thrown `Error` messages / non-2xx JSON payloads in the source). -/
inductive Err where
  | notAvailable        -- "Account is not available for reservation." (409)
  | orderNotFound       -- "Order not found" (404)
  | accountNotFound     -- "Account not found" (404)
  | notDeletable        -- "Cannot delete account. Account must be in 'available' status..."
  | hasPendingOrders    -- "Cannot delete account with pending orders..."
  | forbidden           -- bot: "You can only delete your own accounts."
  | userNotFound        -- "User not found"
  | insufficientBalance -- "Insufficient balance"
  | paymentMismatch     -- "Payment details mismatch." (400)
  | duplicateActiveOrder -- "You already have an active order for this account" (400)
  | badRequest          -- missing required request fields (400)
  deriving Repr, DecidableEq

/-! ## Row lookups and updates (the Drizzle `select`/`update` calls) -/

/-- `db.select().from(accounts).where(eq(accounts.id, id))`, first row. -/
def findAccount (db : DB) (k : Nat) : Option Account :=
  db.accounts.find? (fun a => a.id == k)

/-- `db.select().from(users).where(eq(users.id, id))`, first row. -/
def findUser (db : DB) (k : Nat) : Option User :=
  db.users.find? (fun u => u.id == k)

/-- `db.select().from(orders).where(eq(orders.id, id))`, first row. -/
def findOrder (db : DB) (k : Nat) : Option Order :=
  db.orders.find? (fun o => o.id == k)

/-- `db.update(accounts).set({ status }).where(eq(accounts.id, id))`. -/
def setAccountStatus (accs : List Account) (k : Nat) (st : String) : List Account :=
  accs.map (fun a => if a.id == k then { a with status := st } else a)

/-- `db.update(orders).set({ status }).where(eq(orders.id, id))`. -/
def setOrderStatus (os : List Order) (k : Nat) (st : String) : List Order :=
  os.map (fun o => if o.id == k then { o with status := st } else o)

/-- `PUT /users/:id` — `db.update(users).set({ balance }).where(eq(users.id, id))`. -/
def setUserBalance (db : DB) (k : Nat) (b : Int) : DB :=
  { db with users := db.users.map (fun u => if u.id == k then { u with balance := b } else u) }

/-- Status of the account row with id `k`, if present. -/
def accountStatusOf (db : DB) (k : Nat) : Option String :=
  (findAccount db k).map Account.status

/-- Status of the order row with id `k`, if present. -/
def orderStatusOf (db : DB) (k : Nat) : Option String :=
  (findOrder db k).map Order.status

/-- Balance of user `k` (0 when the row is absent, like `sellerData.balance || 0`). -/
def balanceOf (db : DB) (k : Nat) : Int :=
  match findUser db k with
  | some u => u.balance
  | none => 0

/-- Orders referencing account `k` with status `pending`
(`where(and(eq(orders.account_id, id), eq(orders.status, 'pending')))`). -/
def pendingOrdersFor (db : DB) (k : Nat) : List Order :=
  db.orders.filter (fun o => o.account_id == k && o.status == "pending")

/-- Orders referencing account `k` with an active (`pending`/`in_progress`) status,
as queried by `DELETE /accounts/:id` and `GET /orders/check`. -/
def activeOrdersFor (db : DB) (k : Nat) : List Order :=
  db.orders.filter (fun o => o.account_id == k && (o.status == "pending" || o.status == "in_progress"))

/-! ## POST /accounts/:id/reserve -/

/-- Reservation timeout passed to `setTimeout`: `10 * 60 * 1000` ms. -/
def reservationTimeoutMs : Nat := 10 * 60 * 1000

/-- `POST /accounts/:id/reserve`.  One `db.transaction` that selects the row
`FOR UPDATE`, rejects unless it exists with status `available`, and updates the
status to `pending`, returning the updated row.  The row lock serializes
concurrent attempts, so the whole transaction is one atomic step here. -/
def reserve (db : DB) (k : Nat) (_buyer_id : Nat) : Except Err (DB × Account) :=
  match findAccount db k with
  | none => .error .notAvailable
  | some a =>
    if a.status ≠ "available" then .error .notAvailable
    else
      .ok ({ db with accounts := setAccountStatus db.accounts k "pending" },
           { a with status := "pending" })

/-- A serialized run of reservation attempts by the listed buyers against the
same account (the serialization order the row lock imposes); returns the final
state and how many attempts succeeded. -/
def reserveMany (db : DB) (k : Nat) : List Nat → DB × Nat
  | [] => (db, 0)
  | b :: rest =>
    match reserve db k b with
    | .ok (db1, _) =>
      let r := reserveMany db1 k rest
      (r.1, r.2 + 1)
    | .error _ => reserveMany db k rest

/-- The deferred release body of the reservation `setTimeout`: re-reads the
account; if it is still `pending` and no order with status `pending`
references it, sets it back to `available`; otherwise does nothing. -/
def reservationExpiry (db : DB) (k : Nat) : DB :=
  match findAccount db k with
  | none => db
  | some a =>
    if a.status == "pending" then
      if (pendingOrdersFor db k).isEmpty then
        { db with accounts := setAccountStatus db.accounts k "available" }
      else db
    else db

/-! ## POST /orders (current server) and its legacy variant -/

/-- Serial primary key for a fresh order row. -/
def nextOrderId (db : DB) : Nat :=
  db.orders.foldl (fun m o => max m o.id) 0 + 1

/-- `POST /orders` in the current server: inserts the order row with status
`pending` unconditionally ("The account is already reserved (status:
'pending') by the bot action. We just need to create the order record."). -/
def createOrder (db : DB) (buyer_id account_id : Nat) (amount : Int) (receipt_no : String) :
    DB × Order :=
  let o : Order :=
    { id := nextOrderId db, buyer_id := buyer_id, account_id := account_id,
      amount := amount, receipt_no := receipt_no, status := "pending" }
  ({ db with orders := db.orders ++ [o] }, o)

/-- `POST /orders` in the older entry point: first queries for an order with
the same buyer **and** account in status `pending`/`in_progress` and rejects
if one exists, then inserts. -/
def createOrderLegacy (db : DB) (buyer_id account_id : Nat) (amount : Int) :
    Except Err (DB × Order) :=
  let existing := db.orders.filter (fun o =>
    o.buyer_id == buyer_id && o.account_id == account_id &&
      (o.status == "pending" || o.status == "in_progress"))
  if ¬ existing.isEmpty then .error .duplicateActiveOrder
  else
    let o : Order :=
      { id := nextOrderId db, buyer_id := buyer_id, account_id := account_id,
        amount := amount, receipt_no := "", status := "pending" }
    .ok ({ db with orders := db.orders ++ [o] }, o)

/-- `GET /orders/check` — the pre-flight duplicate guard the bot calls:
true iff an active order by this buyer for this account exists. -/
def ordersCheck (db : DB) (buyer_id account_id : Nat) : Bool :=
  ¬ (db.orders.filter (fun o =>
      o.buyer_id == buyer_id && o.account_id == account_id &&
        (o.status == "pending" || o.status == "in_progress"))).isEmpty

/-! ## POST /orders/verify-payment and the CBE bot checks -/

/-- `POST /orders/verify-payment`, after the external verifier reported
success: rejects with "Payment details mismatch." when
`data.creditedPartyName !== "Kaleb Mate Megane" || settledAmount < expectedAmount`. -/
def verifyPayment (creditedPartyName : String) (settledAmount expectedAmount : Int) :
    Except Err Unit :=
  if creditedPartyName ≠ "Kaleb Mate Megane" ∨ settledAmount < expectedAmount then
    .error .paymentMismatch
  else .ok ()

/-- ASCII uppercase of one character (JS `String.prototype.toUpperCase` on the
ASCII receiver names the code compares). -/
def upChar (c : Char) : Char :=
  if 97 ≤ c.toNat ∧ c.toNat ≤ 122 then Char.ofNat (c.toNat - 32) else c

/-- JS `.toUpperCase()` on ASCII strings. -/
def jsToUpper (s : String) : String := String.mk (s.data.map upChar)

/-- JS whitespace test used by `.trim()`. -/
def isWs (c : Char) : Bool := c = ' ' || c = '\t' || c = '\n' || c = '\r'

/-- JS `.trim()`. -/
def jsTrim (s : String) : String :=
  String.mk (((s.data.dropWhile isWs).reverse.dropWhile isWs).reverse)

/-- The CBE photo handler's allow-list: `['Kaleb Mate', 'KALEB MATE MEGANE']`. -/
def validReceivers : List String := ["Kaleb Mate", "KALEB MATE MEGANE"]

/-- The CBE photo handler's receiver validation:
`validReceivers.some(name => name.toUpperCase() === receiver.trim().toUpperCase())`. -/
def cbeReceiverValid (receiver : String) : Bool :=
  let normalizedReceiver := jsToUpper (jsTrim receiver)
  validReceivers.any (fun name => jsToUpper name == normalizedReceiver)

/-- The CBE photo handler's amount validation: `amount !== accountPrice` rejects,
i.e. the parsed amount must equal the account price exactly. -/
def cbeAmountValid (amount accountPrice : Int) : Bool :=
  amount == accountPrice

/-- The bot's Telebirr text-handler flow: call `POST /orders/verify-payment`;
on a non-2xx response stop (no order); on success call `POST /orders`. -/
def telebirrFlow (db : DB) (buyer_id account_id : Nat) (accountPrice : Int)
    (receiptNo creditedPartyName : String) (settledAmount : Int) : DB × Option Order :=
  match verifyPayment creditedPartyName settledAmount accountPrice with
  | .error _ => (db, none)
  | .ok _ =>
    let r := createOrder db buyer_id account_id accountPrice receiptNo
    (r.1, some r.2)

/-! ## PUT /orders/:id and the completion flow -/

/-- Post-completion cleanup delay passed to `setTimeout`: 5000 ms. -/
def completionCleanupDelayMs : Nat := 5000

/-- `PUT /orders/:id`: 400 unless a status is supplied; 404 unless the order
exists; updates the order's status; when the new status is `completed`, also
sets the referenced account's status to `sold` (the cleanup runs later). -/
def updateOrderStatus (db : DB) (k : Nat) (status : String) : Except Err (DB × Order) :=
  if status = "" then .error .badRequest
  else
    match findOrder db k with
    | none => .error .orderNotFound
    | some o =>
      let db1 := { db with orders := setOrderStatus db.orders k status }
      if status == "completed" then
        .ok ({ db1 with accounts := setAccountStatus db1.accounts o.account_id "sold" },
             { o with status := status })
      else .ok (db1, { o with status := status })

/-- The deferred cleanup body of the completion `setTimeout`: deletes all
orders referencing the account, then the account itself. -/
def completionCleanup (db : DB) (account_id : Nat) : DB :=
  { db with
    orders := db.orders.filter (fun o => o.account_id != account_id),
    accounts := db.accounts.filter (fun a => a.id != account_id) }

/-- The bot's `transfer_complete` flow run without interleaving: PUT the order
to `completed` (order status + account `sold`), re-read the order join to find
the seller, read the seller's balance, and PUT balance := balance + price.
Returns the new state and the `(seller, price)` credited, if any. -/
def completeOrderFull (db : DB) (orderId : Nat) : DB × Option (Nat × Int) :=
  match updateOrderStatus db orderId "completed" with
  | .error _ => (db, none)
  | .ok (db1, o) =>
    match findAccount db1 o.account_id with
    | none => (db1, none)            -- GET /orders/:id join fails; bot stops, no credit
    | some a =>
      match findUser db1 a.owner_id with
      | none => (db1, none)          -- seller fetch fails; bot logs, no credit
      | some s => (setUserBalance db1 a.owner_id (s.balance + a.price), some (a.owner_id, a.price))

/-- Sequential (non-overlapping) runs of `transfer_complete` for a list of
orders; also returns the log of credits performed. -/
def execSeq (db : DB) : List Nat → DB × List (Nat × Int)
  | [] => (db, [])
  | oid :: rest =>
    let r := completeOrderFull db oid
    let rec' := execSeq r.1 rest
    match r.2 with
    | some c => (rec'.1, c :: rec'.2)
    | none => (rec'.1, rec'.2)

/-- Total credited to user `u` in a credit log. -/
def creditSum (u : Nat) : List (Nat × Int) → Int
  | [] => 0
  | (s, p) :: rest => (if s = u then p else 0) + creditSum u rest

/-! ### The same flow as interleavable micro-steps

Each `transfer_complete` instance performs its I/O in separate HTTP round
trips, so two instances can interleave between the balance read and the
balance write.  A process is its program counter plus the values it has
read so far. -/

structure CreditProc where
  orderId : Nat
  pc : Nat           -- 0: PUT order completed; 1: read balance; 2: write balance; ≥3: done
  sellerId : Nat
  price : Int
  localBalance : Int
  deriving Repr, DecidableEq

/-- One atomic micro-step of a `transfer_complete` instance. -/
def creditStep (db : DB) (p : CreditProc) : DB × CreditProc :=
  if p.pc == 0 then
    match updateOrderStatus db p.orderId "completed" with
    | .error _ => (db, { p with pc := 4 })
    | .ok (db1, o) =>
      match findAccount db1 o.account_id with
      | none => (db1, { p with pc := 4 })
      | some a => (db1, { p with pc := 1, sellerId := a.owner_id, price := a.price })
  else if p.pc == 1 then
    match findUser db p.sellerId with
    | none => (db, { p with pc := 4 })
    | some s => (db, { p with pc := 2, localBalance := s.balance })
  else if p.pc == 2 then
    (setUserBalance db p.sellerId (p.localBalance + p.price), { p with pc := 3 })
  else (db, p)

/-- Run two `transfer_complete` instances under a schedule: `true` steps the
first process, `false` the second. -/
def runSched (db : DB) (p q : CreditProc) : List Bool → DB × CreditProc × CreditProc
  | [] => (db, p, q)
  | b :: rest =>
    if b then
      let r := creditStep db p
      runSched r.1 r.2 q rest
    else
      let r := creditStep db q
      runSched r.1 p r.2 rest

/-- Fresh `transfer_complete` instance for an order. -/
def initProc (orderId : Nat) : CreditProc :=
  { orderId := orderId, pc := 0, sellerId := 0, price := 0, localBalance := 0 }

/-! ## POST /orders/:id/cancel -/

/-- `POST /orders/:id/cancel`: one transaction that loads the order (404 if
absent), sets the referenced account's status back to `available`, deletes the
order, and returns the deleted row.  The order's own status is never checked. -/
def cancelOrder (db : DB) (k : Nat) : Except Err (DB × Order) :=
  match findOrder db k with
  | none => .error .orderNotFound
  | some o =>
    let db1 := { db with accounts := setAccountStatus db.accounts o.account_id "available" }
    .ok ({ db1 with orders := db1.orders.filter (fun x => x.id != k) }, o)

/-! ## DELETE /accounts/:id and the bot's ownership gate -/

/-- `DELETE /accounts/:id` (current server): 404 unless the account exists;
rejects unless its status is `available`; rejects when active
(`pending`/`in_progress`) orders reference it; otherwise hard-deletes it.
The store declares `orders.account_id ... ON DELETE cascade`
(`db/schema.js`, migration `0000_many_la_nuit.sql`), so deleting the account
row also deletes every order row referencing it — by the active-orders guard,
any such residual orders are in non-active statuses. -/
def deleteAccountApi (db : DB) (k : Nat) : Except Err (DB × Account) :=
  match findAccount db k with
  | none => .error .accountNotFound
  | some a =>
    if a.status ≠ "available" then .error .notDeletable
    else if ¬ (activeOrdersFor db k).isEmpty then .error .hasPendingOrders
    else .ok ({ db with accounts := db.accounts.filter (fun x => x.id != k),
                        orders := db.orders.filter (fun x => x.account_id != k) }, a)

/-- The bot's `delete_account` action followed by the API call: the bot first
verifies the requester is the account's owner and only then issues the
DELETE.  `requester` stands for the requesting user's id. -/
def deleteAccountFlow (db : DB) (k : Nat) (requester : Nat) : Except Err (DB × Account) :=
  match findAccount db k with
  | none => .error .accountNotFound
  | some a =>
    if a.owner_id ≠ requester then .error .forbidden
    else deleteAccountApi db k

/-! ## POST /withdrawals -/

/-- `POST /withdrawals`: one transaction that loads the user (error if
absent), rejects when `balance < amount`, otherwise writes
`balance - amount` back and inserts a `pending` withdrawal row. -/
def withdraw (db : DB) (user_id : Nat) (amount : Int) : Except Err (DB × Withdrawal) :=
  match findUser db user_id with
  | none => .error .userNotFound
  | some u =>
    if u.balance < amount then .error .insufficientBalance
    else
      let w : Withdrawal := { user_id := user_id, amount := amount, status := "pending" }
      .ok ({ setUserBalance db user_id (u.balance - amount) with
             withdrawals := db.withdrawals ++ [w] }, w)

/-! ## GET /accounts and GET /search/accounts -/

/-- The `where(eq(accounts.status, 'available'))` filter both listing
endpoints apply to the page query and to the count query. -/
def availableAccounts (db : DB) : List Account :=
  db.accounts.filter (fun a => a.status == "available")

/-- `GET /accounts`: count of available accounts plus one offset/limit page of
them, ordered by `created_at` descending (id as tie-break). -/
def listAccountsPage (db : DB) (page limit : Nat) : List Account × Nat :=
  let sorted := (availableAccounts db).mergeSort
    (fun a b => b.created_at < a.created_at || (b.created_at == a.created_at && a.id ≤ b.id))
  ((sorted.drop ((page - 1) * limit)).take limit, (availableAccounts db).length)

/-- `GET /search/accounts`: the condition list always starts with
`eq(accounts.status, 'available')`; the optional name/platform/subscriber/
monetization/year filters are abstracted as the predicate `P`.  Both the page
and the reported total use the same conditions. -/
def searchAccountsPage (db : DB) (P : Account → Bool) (page limit : Nat) :
    List Account × Nat :=
  let filtered := db.accounts.filter (fun a => a.status == "available" && P a)
  let sorted := filtered.mergeSort
    (fun a b => b.created_at < a.created_at || (b.created_at == a.created_at && a.id ≤ b.id))
  ((sorted.drop ((page - 1) * limit)).take limit, filtered.length)

/-! ## The operations as a single step relation (for the transition-graph claim) -/

inductive Op where
  | reserve (k buyer : Nat)
  | createOrder (buyer account : Nat) (amount : Int) (receipt : String)
  | updateOrder (k : Nat) (status : String)
  | cancelOrder (k : Nat)
  | deleteAccount (k requester : Nat)
  | expiry (k : Nat)
  | cleanup (k : Nat)
  | withdraw (user : Nat) (amount : Int)
  deriving Repr, DecidableEq

/-- Applying an operation to the store; failed requests leave it unchanged. -/
def applyOp (db : DB) : Op → DB
  | .reserve k b =>
    match reserve db k b with
    | .ok (db1, _) => db1
    | .error _ => db
  | .createOrder b a amt r => (createOrder db b a amt r).1
  | .updateOrder k st =>
    match updateOrderStatus db k st with
    | .ok (db1, _) => db1
    | .error _ => db
  | .cancelOrder k =>
    match cancelOrder db k with
    | .ok (db1, _) => db1
    | .error _ => db
  | .deleteAccount k r =>
    match deleteAccountFlow db k r with
    | .ok (db1, _) => db1
    | .error _ => db
  | .expiry k => reservationExpiry db k
  | .cleanup k => completionCleanup db k
  | .withdraw u amt =>
    match withdraw db u amt with
    | .ok (db1, _) => db1
    | .error _ => db

/-! ## Helper lemmas about lookups after updates -/

/-- `find?` along a map that preserves the lookup key finds the image of what
the original list's `find?` finds. -/
theorem find?_map_key {α : Type} (f : α → α) (key : α → Nat)
    (hf : ∀ a, key (f a) = key a) (l : List α) (k : Nat) :
    (l.map f).find? (fun a => key a == k) = (l.find? (fun a => key a == k)).map f := by
  induction l with
  | nil => rfl
  | cons a l ih =>
    simp only [List.map_cons, List.find?_cons, hf]
    cases h : (key a == k) <;> simp [h, ih]

/-- `find?` by key along a filter that removes the rows with key `i`. -/
theorem find?_filter_key {α : Type} (key : α → Nat) (l : List α) (i k : Nat) :
    (l.filter (fun a => key a != i)).find? (fun a => key a == k) =
      if k = i then none else l.find? (fun a => key a == k) := by
  induction l with
  | nil => simp
  | cons a l ih =>
    simp only [List.filter_cons]
    by_cases hai : key a = i
    · rw [if_neg (by simp [hai])]
      by_cases hk : k = i
      · simp [ih, hk]
      · have hne : ¬ ((fun x => key x == k) a = true) := by
          simp only [beq_iff_eq, hai]
          exact fun h => hk h.symm
        rw [ih, List.find?_cons_of_neg l hne]
    · rw [if_pos (by simp [hai])]
      by_cases hak : key a = k
      · have hki : ¬ k = i := fun h => hai (by rw [hak, h])
        rw [List.find?_cons_of_pos _ (by simp [hak]),
          List.find?_cons_of_pos l (by simp [hak]), if_neg hki]
      · rw [List.find?_cons_of_neg _ (by simp [hak]),
          List.find?_cons_of_neg l (by simp [hak]), ih]

/-- Looking an account up after `setAccountStatus`. -/
theorem find?_setAccountStatus (accs : List Account) (i k : Nat) (v : String) :
    (setAccountStatus accs i v).find? (fun a => a.id == k) =
      if k = i then
        (accs.find? (fun a => a.id == k)).map (fun a => { a with status := v })
      else accs.find? (fun a => a.id == k) := by
  have hmap := find?_map_key (fun a => if a.id == i then { a with status := v } else a)
    Account.id (fun a => by by_cases h : (a.id == i) = true <;> simp [h]) accs k
  rw [setAccountStatus, hmap]
  cases hfind : accs.find? (fun a => a.id == k) with
  | none => simp
  | some a =>
    have hak : a.id = k := by simpa using List.find?_some hfind
    by_cases hk : k = i
    · simp [hak, hk]
    · simp [hak, hk]

/-- Looking an order up after `setOrderStatus`. -/
theorem find?_setOrderStatus (os : List Order) (i k : Nat) (v : String) :
    (setOrderStatus os i v).find? (fun o => o.id == k) =
      if k = i then
        (os.find? (fun o => o.id == k)).map (fun o => { o with status := v })
      else os.find? (fun o => o.id == k) := by
  have hmap := find?_map_key (fun o => if o.id == i then { o with status := v } else o)
    Order.id (fun o => by by_cases h : (o.id == i) = true <;> simp [h]) os k
  rw [setOrderStatus, hmap]
  cases hfind : os.find? (fun o => o.id == k) with
  | none => simp
  | some o =>
    have hok : o.id = k := by simpa using List.find?_some hfind
    by_cases hk : k = i
    · simp [hok, hk]
    · simp [hok, hk]

/-- `accountStatusOf` after a status write, stated over raw record fields. -/
theorem accountStatusOf_set (db : DB) (us : List User) (os : List Order)
    (ws : List Withdrawal) (i k : Nat) (v : String) :
    accountStatusOf ⟨us, setAccountStatus db.accounts i v, os, ws⟩ k =
      if k = i then (accountStatusOf db k).map (fun _ => v)
      else accountStatusOf db k := by
  unfold accountStatusOf findAccount
  simp only [find?_setAccountStatus]
  by_cases hk : k = i <;> cases accs : db.accounts.find? (fun a => a.id == k) <;>
    simp [hk]

/-- `accountStatusOf` after hard-deleting the rows with id `i`. -/
theorem accountStatusOf_del (db : DB) (us : List User) (os : List Order)
    (ws : List Withdrawal) (i k : Nat) :
    accountStatusOf ⟨us, db.accounts.filter (fun a => a.id != i), os, ws⟩ k =
      if k = i then none else accountStatusOf db k := by
  unfold accountStatusOf findAccount
  rw [show (fun (a : Account) => a.id != i) = (fun a => Account.id a != i) from rfl,
    find?_filter_key Account.id db.accounts i k]
  by_cases hk : k = i <;> simp [hk]

/-- Whether a request succeeded. -/
def isOk {ε α : Type} : Except ε α → Bool
  | .ok _ => true
  | .error _ => false

instance {ε α : Type} [DecidableEq ε] [DecidableEq α] : DecidableEq (Except ε α)
  | .ok x, .ok y =>
    if h : x = y then .isTrue (congrArg Except.ok h)
    else .isFalse fun hc => h (Except.ok.inj hc)
  | .error x, .error y =>
    if h : x = y then .isTrue (congrArg Except.error h)
    else .isFalse fun hc => h (Except.error.inj hc)
  | .ok _, .error _ => .isFalse fun hc => Except.noConfusion hc
  | .error _, .ok _ => .isFalse fun hc => Except.noConfusion hc

/-! ## Claim C2 — duplicate-order guard on order creation -/

/-- Claim C2 (amended): the current server's `POST /orders` performs no
duplicate-active-order check at insert time: for every state and every
request it succeeds and appends exactly one new Order row with status
`pending` carrying the requested fields. -/
theorem createOrder_unconditional_insert (db : DB) (b acc : Nat) (amt : Int) (r : String) :
    (createOrder db b acc amt r).1.orders
        = db.orders ++ [(createOrder db b acc amt r).2]
      ∧ (createOrder db b acc amt r).2.status = "pending"
      ∧ (createOrder db b acc amt r).2.buyer_id = b
      ∧ (createOrder db b acc amt r).2.account_id = acc
      ∧ (createOrder db b acc amt r).2.amount = amt
      ∧ (createOrder db b acc amt r).2.receipt_no = r :=
  ⟨rfl, rfl, rfl, rfl, rfl, rfl⟩

/-- A state that already holds an active (`pending`) Order for account 1. -/
def dbC2 : DB :=
  { users := [⟨3, "t3", 0⟩, ⟨4, "t4", 0⟩, ⟨7, "t7", 0⟩],
    accounts := [⟨1, 7, 500, "pending", 0⟩],
    orders := [⟨10, 3, 1, 500, "R1", "pending"⟩],
    withdrawals := [] }

/-- Claim C2 counterexample: with an active Order already present for the
Account, the current server's createOrder still succeeds and inserts a second
Order (the claim demands a `DuplicateActiveOrder` failure and no insert), and
even the older entry point's guard only covers the same buyer: a different
buyer's duplicate for the same account also succeeds there. -/
theorem createOrder_duplicate_not_prevented_cex :
    (activeOrdersFor dbC2 1).length = 1
      ∧ (createOrder dbC2 3 1 500 "R1").1.orders.length = 2
      ∧ (activeOrdersFor (createOrder dbC2 3 1 500 "R1").1 1).length = 2
      ∧ isOk (createOrderLegacy dbC2 4 1 500) = true := by decide

/-! ## Claim C3 — payment verification matching rule -/

/-- Claim C3 (amended): `POST /orders/verify-payment` accepts only when the
settled amount is at least the expected amount **and** the credited party name
is exactly the string "Kaleb Mate Megane" — a case-sensitive, untrimmed
comparison; every rejection is the `PaymentMismatch` error, and the bot's
Telebirr flow creates no Order on a rejection.  (Separately, the CBE photo
handler uses the case-insensitive, trimmed allow-list and requires the parsed
amount to equal the price exactly.) -/
theorem verifyPayment_exact_case_sensitive (name : String) (settled expected : Int) :
    (verifyPayment name settled expected = .ok () ↔
      name = "Kaleb Mate Megane" ∧ expected ≤ settled)
  ∧ (∀ e, verifyPayment name settled expected = .error e → e = .paymentMismatch)
  ∧ (∀ db b acc r, verifyPayment name settled expected ≠ .ok () →
      telebirrFlow db b acc expected r name settled = (db, none))
  ∧ (∀ recv, cbeReceiverValid recv = true ↔
      (jsToUpper (jsTrim recv) = "KALEB MATE" ∨
        jsToUpper (jsTrim recv) = "KALEB MATE MEGANE"))
  ∧ (∀ a p : Int, cbeAmountValid a p = true ↔ a = p) := by
  refine ⟨?_, ?_, ?_, ?_, ?_⟩
  · constructor
    · intro h
      unfold verifyPayment at h
      split at h
      · cases h
      · rename_i hcond
        push_neg at hcond
        exact ⟨hcond.1, hcond.2⟩
    · rintro ⟨h1, h2⟩
      unfold verifyPayment
      rw [if_neg (by push_neg; exact ⟨h1, h2⟩)]
  · intro e he
    unfold verifyPayment at he
    split at he
    · injection he with h
      exact h.symm
    · cases he
  · intro db b acc r hne
    unfold telebirrFlow
    cases hv : verifyPayment name settled expected with
    | error e => rfl
    | ok u => cases u; exact absurd hv hne
  · intro recv
    have e1 : jsToUpper "Kaleb Mate" = "KALEB MATE" := rfl
    have e2 : jsToUpper "KALEB MATE MEGANE" = "KALEB MATE MEGANE" := rfl
    simp only [cbeReceiverValid, validReceivers, List.any_cons, List.any_nil,
      Bool.or_false, Bool.or_eq_true, beq_iff_eq, e1, e2]
    constructor
    · rintro (h | h) <;> [left; right] <;> exact h.symm
    · rintro (h | h) <;> [left; right] <;> exact h.symm
  · intro a p
    simp [cbeAmountValid]

/-- A state for exercising the Telebirr flow at a rejected verification. -/
def dbC3 : DB :=
  { users := [⟨3, "t3", 0⟩, ⟨7, "t7", 0⟩],
    accounts := [⟨1, 7, 500, "pending", 0⟩],
    orders := [], withdrawals := [] }

/-- Claim C3 witness: a lowercase rendering of the escrow identity is
rejected, so the Telebirr flow creates no Order. -/
theorem verifyPayment_exact_case_sensitive_witness :
    telebirrFlow dbC3 3 1 500 "R" "kaleb mate megane" 500 = (dbC3, none) :=
  (verifyPayment_exact_case_sensitive "kaleb mate megane" 500 500).2.2.1
    dbC3 3 1 "R" (by decide)

/-- Claim C3 counterexample: the receiver string "KALEB MATE MEGANE" equals
the escrow identity under the case-insensitive, whitespace-trimmed comparison
the claim requires (it is even literally on the CBE allow-list), and the
settled amount matches, yet the verify-payment endpoint rejects it —
the endpoint's comparison is case-sensitive. -/
theorem verifyPayment_case_sensitivity_cex :
    verifyPayment "KALEB MATE MEGANE" 500 500 = .error .paymentMismatch
      ∧ jsToUpper (jsTrim "KALEB MATE MEGANE") = jsToUpper (jsTrim "Kaleb Mate Megane")
      ∧ cbeReceiverValid "KALEB MATE MEGANE" = true := by decide

/-! ## Claim C6 — cancelOrder -/

/-- Claim C6 (amended): `POST /orders/:id/cancel` fails with `OrderNotFound`
exactly when no Order with that id exists (leaving state untouched, since the
transaction aborts), and on success — for an Order of **any** status, the
endpoint never checks for `pending` — it atomically reverts the referenced
Account's status to `available`, deletes the Order, and returns it. -/
theorem cancelOrder_spec (db : DB) (k : Nat) :
    (cancelOrder db k = .error .orderNotFound ↔ findOrder db k = none)
  ∧ (∀ e, cancelOrder db k = .error e → e = .orderNotFound)
  ∧ (∀ db1 o, cancelOrder db k = .ok (db1, o) →
      findOrder db k = some o
        ∧ accountStatusOf db1 o.account_id
            = (accountStatusOf db o.account_id).map (fun _ => "available")
        ∧ findOrder db1 k = none
        ∧ db1.users = db.users ∧ db1.withdrawals = db.withdrawals) := by
  refine ⟨?_, ?_, ?_⟩
  · cases h : findOrder db k <;> simp [cancelOrder, h]
  · intro e he
    cases h : findOrder db k <;> simp only [cancelOrder, h] at he
    · injection he with h1
      exact h1.symm
    · cases he
  · intro db1 o hok
    cases h : findOrder db k <;> simp only [cancelOrder, h] at hok
    · cases hok
    · rename_i o0
      injection hok with h1
      injection h1 with hdb ho
      subst hdb
      subst ho
      refine ⟨rfl, ?_, ?_, rfl, rfl⟩
      · have hset := accountStatusOf_set db db.users
          (db.orders.filter (fun x => x.id != k)) db.withdrawals
          o0.account_id o0.account_id "available"
        rw [if_pos rfl] at hset
        exact hset
      · show (db.orders.filter (fun x => x.id != k)).find? (fun x => x.id == k) = none
        rw [find?_filter_key Order.id db.orders k k, if_pos rfl]

/-- A state holding a completed Order whose Account is already sold. -/
def dbC6 : DB :=
  { users := [⟨3, "t3", 0⟩, ⟨7, "t7", 0⟩],
    accounts := [⟨1, 7, 500, "sold", 0⟩],
    orders := [⟨5, 3, 1, 500, "R", "completed"⟩],
    withdrawals := [] }

/-- Claim C6 counterexample: the claim requires the Order's status to be
`pending`, but cancelling an Order whose status is `completed` succeeds. -/
theorem cancelOrder_no_pending_requirement_cex :
    orderStatusOf dbC6 5 = some "completed"
      ∧ isOk (cancelOrder dbC6 5) = true := by decide

/-- A missing-order state for the witness. -/
def dbC6w : DB :=
  { users := [⟨3, "t3", 0⟩], accounts := [], orders := [], withdrawals := [] }

/-- Claim C6 witness: cancelling a non-existent Order fails `OrderNotFound`. -/
theorem cancelOrder_spec_witness :
    cancelOrder dbC6w 99 = .error .orderNotFound :=
  (cancelOrder_spec dbC6w 99).1.mpr (by decide)

/-! ## Claim C8 — reservation expiry -/

/-- Claim C8 (amended): the deferred release is scheduled at the fixed
10-minute (600000 ms) timeout; at expiry, if the Account is still `pending`
and no Order **with status `pending`** references it, it reverts to
`available`; if a pending Order references it, or its status has advanced
past `pending`, or it no longer exists, the task changes nothing; and the
task is idempotent.  (Orders in other statuses, e.g. `in_progress`, do not
block the revert — the release query filters on status `pending`.) -/
theorem reservationExpiry_spec (db : DB) (k : Nat) :
    reservationTimeoutMs = 600000
  ∧ (accountStatusOf db k = some "pending" → pendingOrdersFor db k = [] →
      accountStatusOf (reservationExpiry db k) k = some "available")
  ∧ (accountStatusOf db k = some "pending" → pendingOrdersFor db k ≠ [] →
      reservationExpiry db k = db)
  ∧ (∀ s, accountStatusOf db k = some s → s ≠ "pending" → reservationExpiry db k = db)
  ∧ (accountStatusOf db k = none → reservationExpiry db k = db)
  ∧ reservationExpiry (reservationExpiry db k) k = reservationExpiry db k := by
  refine ⟨rfl, ?_, ?_, ?_, ?_, ?_⟩
  · intro hp hno
    obtain ⟨a, hf, hst⟩ : ∃ a, findAccount db k = some a ∧ a.status = "pending" := by
      unfold accountStatusOf at hp
      cases hfa : findAccount db k <;> rw [hfa] at hp
      · cases hp
      · exact ⟨_, rfl, by simpa using hp⟩
    simp only [reservationExpiry, hf]
    rw [if_pos (by simp [hst]), if_pos (by simp [hno])]
    have hset := accountStatusOf_set db db.users db.orders db.withdrawals k k "available"
    rw [if_pos rfl] at hset
    rw [hset]
    simp [accountStatusOf, hf]
  · intro hp hsome
    obtain ⟨a, hf, hst⟩ : ∃ a, findAccount db k = some a ∧ a.status = "pending" := by
      unfold accountStatusOf at hp
      cases hfa : findAccount db k <;> rw [hfa] at hp
      · cases hp
      · exact ⟨_, rfl, by simpa using hp⟩
    simp only [reservationExpiry, hf]
    rw [if_pos (by simp [hst]), if_neg (by simp [List.isEmpty_iff]; exact hsome)]
  · intro s hs hne
    obtain ⟨a, hf, hsa⟩ : ∃ a, findAccount db k = some a ∧ a.status = s := by
      unfold accountStatusOf at hs
      cases hfa : findAccount db k <;> rw [hfa] at hs
      · cases hs
      · exact ⟨_, rfl, by simpa using hs⟩
    simp only [reservationExpiry, hf]
    rw [if_neg (by simp [hsa, hne])]
  · intro hn
    have hf : findAccount db k = none := by
      unfold accountStatusOf at hn
      cases hfa : findAccount db k <;> rw [hfa] at hn
      all_goals simp_all
    simp only [reservationExpiry, hf]
  · cases hfa : findAccount db k with
    | none =>
      have h1 : reservationExpiry db k = db := by simp only [reservationExpiry, hfa]
      simp only [h1]
    | some a =>
      by_cases hst : a.status = "pending"
      · by_cases hno : (pendingOrdersFor db k).isEmpty = true
        · have h1 : reservationExpiry db k =
              ⟨db.users, setAccountStatus db.accounts k "available", db.orders, db.withdrawals⟩ := by
            simp only [reservationExpiry, hfa]
            rw [if_pos (by simp [hst]), if_pos hno]
          have hf2 : findAccount
              ⟨db.users, setAccountStatus db.accounts k "available", db.orders, db.withdrawals⟩ k
              = some { a with status := "available" } := by
            show (setAccountStatus db.accounts k "available").find? (fun x => x.id == k)
              = some { a with status := "available" }
            rw [find?_setAccountStatus db.accounts k k "available", if_pos rfl]
            show (findAccount db k).map _ = _
            rw [hfa]
            rfl
          rw [h1]
          simp only [reservationExpiry, hf2]
          rw [if_neg (by simp)]
        · have h1 : reservationExpiry db k = db := by
            simp only [reservationExpiry, hfa]
            rw [if_pos (by simp [hst]), if_neg hno]
          simp only [h1]
      · have h1 : reservationExpiry db k = db := by
          simp only [reservationExpiry, hfa]
          rw [if_neg (by simp [hst])]
        simp only [h1]

/-- A `pending` Account referenced only by an `in_progress` Order. -/
def dbC8 : DB :=
  { users := [⟨3, "t3", 0⟩, ⟨7, "t7", 0⟩],
    accounts := [⟨1, 7, 500, "pending", 0⟩],
    orders := [⟨5, 3, 1, 500, "R", "in_progress"⟩],
    withdrawals := [] }

/-- Claim C8 counterexample: an Order referencing the Account exists at
expiry (status `in_progress`), yet the expiry task still reverts the Account
to `available` — the claim says the task changes nothing when any Order
referencing the Account exists. -/
theorem reservationExpiry_ignores_in_progress_cex :
    accountStatusOf dbC8 1 = some "pending"
      ∧ (dbC8.orders.filter (fun o => o.account_id == 1)).length = 1
      ∧ accountStatusOf (reservationExpiry dbC8 1) 1 = some "available" := by decide

/-- A reserved Account with no orders at all, for the witness. -/
def dbC8w : DB :=
  { users := [⟨3, "t3", 0⟩, ⟨7, "t7", 0⟩],
    accounts := [⟨1, 7, 500, "pending", 0⟩],
    orders := [], withdrawals := [] }

/-- Claim C8 witness: with no order created, expiry releases the Account. -/
theorem reservationExpiry_spec_witness :
    accountStatusOf (reservationExpiry dbC8w 1) 1 = some "available" :=
  (reservationExpiry_spec dbC8w 1).2.1 (by decide) (by decide)

/-! ## Claim C9 — withdrawals -/

/-- Looking a user up after `setUserBalance`. -/
theorem findUser_setUserBalance (db : DB) (j u : Nat) (v : Int) :
    findUser (setUserBalance db j v) u =
      if u = j then (findUser db u).map (fun s => { s with balance := v })
      else findUser db u := by
  have hmap := find?_map_key (fun s => if s.id == j then { s with balance := v } else s)
    User.id (fun s => by by_cases h : (s.id == j) = true <;> simp [h]) db.users u
  simp only [findUser, setUserBalance]
  rw [hmap]
  cases hfind : db.users.find? (fun s => s.id == u) with
  | none => simp [hfind]
  | some s =>
    have hsu : s.id = u := by simpa using List.find?_some hfind
    by_cases hj : u = j <;> simp [hfind, hsu, hj]

/-- Claim C9: `POST /withdrawals` fails with `InsufficientBalance` exactly
when the user exists with balance below the requested amount (the transaction
aborts, so balance and withdrawal rows are untouched); on success, within the
one transaction, the balance drops by exactly the amount, a `pending`
Withdrawal row for that amount is appended, and the resulting balance is
still non-negative. -/
theorem withdraw_spec (db : DB) (uid : Nat) (amt : Int) :
    (withdraw db uid amt = .error .insufficientBalance ↔
      ∃ u, findUser db uid = some u ∧ u.balance < amt)
  ∧ (∀ db1 w, withdraw db uid amt = .ok (db1, w) →
      balanceOf db1 uid = balanceOf db uid - amt
        ∧ w.user_id = uid ∧ w.amount = amt ∧ w.status = "pending"
        ∧ db1.withdrawals = db.withdrawals ++ [w]
        ∧ db1.accounts = db.accounts ∧ db1.orders = db.orders
        ∧ 0 ≤ balanceOf db1 uid) := by
  constructor
  · cases hu : findUser db uid with
    | none => simp [withdraw, hu]
    | some u =>
      by_cases hb : u.balance < amt
      · simp only [withdraw, hu, if_pos hb]
        simp [hu, hb]
      · simp only [withdraw, hu, if_neg hb]
        simp [hu, hb]
  · intro db1 w hok
    cases hu : findUser db uid with
    | none =>
      simp only [withdraw, hu] at hok
      exact Except.noConfusion hok
    | some u =>
      by_cases hb : u.balance < amt
      · simp only [withdraw, hu, if_pos hb] at hok
        exact Except.noConfusion hok
      · simp only [withdraw, hu, if_neg hb] at hok
        injection hok with h1
        injection h1 with hdb hw
        subst hdb
        subst hw
        have hbal : balanceOf
            { setUserBalance db uid (u.balance - amt) with
              withdrawals := db.withdrawals ++ [⟨uid, amt, "pending"⟩] } uid
            = u.balance - amt := by
          show balanceOf (setUserBalance db uid (u.balance - amt)) uid = _
          unfold balanceOf
          rw [findUser_setUserBalance db uid uid (u.balance - amt), if_pos rfl, hu]
          simp
        have hb0 : balanceOf db uid = u.balance := by unfold balanceOf; rw [hu]
        refine ⟨by rw [hbal, hb0], rfl, rfl, rfl, rfl, rfl, rfl, ?_⟩
        rw [hbal]
        omega

/-- A user with balance 100, for the witness. -/
def dbC9 : DB :=
  { users := [⟨1, "t1", 100⟩], accounts := [], orders := [], withdrawals := [] }

/-- The state after `dbC9`'s user withdraws 60. -/
def dbC9r : DB :=
  { users := [⟨1, "t1", 40⟩], accounts := [], orders := [],
    withdrawals := [⟨1, 60, "pending"⟩] }

/-- Claim C9 witness: a successful withdrawal of 60 from balance 100. -/
theorem withdraw_spec_witness :
    balanceOf dbC9r 1 = balanceOf dbC9 1 - 60 ∧ (0:Int) ≤ balanceOf dbC9r 1 :=
  ⟨((withdraw_spec dbC9 1 60).2 dbC9r ⟨1, 60, "pending"⟩ (by decide)).1,
   ((withdraw_spec dbC9 1 60).2 dbC9r ⟨1, 60, "pending"⟩ (by decide)).2.2.2.2.2.2.2⟩

/-! ## Claim C1 — reservation -/

/-- When the account is not `available` (or absent), every serialized
reservation attempt fails and the state never changes. -/
theorem reserveMany_of_not_available (db : DB) (k : Nat) (buyers : List Nat)
    (h : accountStatusOf db k ≠ some "available") :
    (reserveMany db k buyers).1 = db ∧ (reserveMany db k buyers).2 = 0 := by
  induction buyers with
  | nil => exact ⟨rfl, rfl⟩
  | cons b rest ih =>
    have hfail : reserve db k b = .error .notAvailable := by
      cases hf : findAccount db k with
      | none => simp only [reserve, hf]
      | some a =>
        simp only [reserve, hf]
        rw [if_pos]
        intro hs
        exact h (by simp [accountStatusOf, hf, hs])
    simp only [reserveMany, hfail]
    exact ih

/-- Claim C1: the reservation transaction succeeds exactly when the Account's
current status is `available` (every failure is the `NotAvailable` error);
on success the Account's status is `pending` and the updated row is returned;
and because the `FOR UPDATE` row lock serializes the check-and-set, among any
non-empty serialized sequence of reservation attempts on an `available`
Account exactly one succeeds — in particular every attempt after a success
fails with `NotAvailable`. -/
theorem reserve_spec (db : DB) (k b : Nat) :
    (isOk (reserve db k b) = true ↔ accountStatusOf db k = some "available")
  ∧ (∀ e, reserve db k b = .error e → e = .notAvailable)
  ∧ (∀ db1 a1, reserve db k b = .ok (db1, a1) →
      accountStatusOf db1 k = some "pending" ∧ a1.status = "pending"
        ∧ findAccount db1 k = some a1
        ∧ ∀ b2, reserve db1 k b2 = .error .notAvailable)
  ∧ (∀ buyers : List Nat, accountStatusOf db k = some "available" → buyers ≠ [] →
      (reserveMany db k buyers).2 = 1) := by
  have hok : ∀ db1 a1, reserve db k b = .ok (db1, a1) →
      accountStatusOf db1 k = some "pending" ∧ a1.status = "pending"
        ∧ findAccount db1 k = some a1
        ∧ ∀ b2, reserve db1 k b2 = .error .notAvailable := by
    intro db1 a1 hr
    cases hf : findAccount db k with
    | none =>
      simp only [reserve, hf] at hr
      exact Except.noConfusion hr
    | some a =>
      by_cases hs : a.status = "available"
      · simp only [reserve, hf, if_neg (by simp [hs] : ¬ a.status ≠ "available")] at hr
        injection hr with h1
        injection h1 with hdb ha
        subst hdb
        subst ha
        have hftarget : findAccount
            { db with accounts := setAccountStatus db.accounts k "pending" } k
            = some { a with status := "pending" } := by
          show (setAccountStatus db.accounts k "pending").find? (fun x => x.id == k)
            = some { a with status := "pending" }
          rw [find?_setAccountStatus db.accounts k k "pending", if_pos rfl]
          show (findAccount db k).map _ = _
          rw [hf]
          rfl
        refine ⟨by simp [accountStatusOf, hftarget], rfl, hftarget, ?_⟩
        intro b2
        simp only [reserve, hftarget]
        rw [if_pos]
        intro hc
        exact absurd hc (by decide)
      · simp only [reserve, hf, if_pos (by simp [hs] : a.status ≠ "available")] at hr
        exact Except.noConfusion hr
  refine ⟨?_, ?_, hok, ?_⟩
  · constructor
    · intro h
      cases hf : findAccount db k with
      | none =>
        rw [show isOk (reserve db k b) = false from by simp only [reserve, hf]; rfl] at h
        cases h
      | some a =>
        by_cases hs : a.status = "available"
        · simp [accountStatusOf, hf, hs]
        · rw [show isOk (reserve db k b) = false from by
            simp only [reserve, hf, if_pos (by simp [hs] : a.status ≠ "available")]; rfl] at h
          cases h
    · intro h
      obtain ⟨a, hf, hs⟩ : ∃ a, findAccount db k = some a ∧ a.status = "available" := by
        unfold accountStatusOf at h
        cases hfa : findAccount db k <;> rw [hfa] at h
        · cases h
        · exact ⟨_, rfl, by simpa using h⟩
      simp only [reserve, hf, if_neg (by simp [hs] : ¬ a.status ≠ "available")]
      rfl
  · intro e he
    cases hf : findAccount db k with
    | none =>
      simp only [reserve, hf] at he
      injection he with h1
      exact h1.symm
    | some a =>
      by_cases hs : a.status = "available"
      · simp only [reserve, hf, if_neg (by simp [hs] : ¬ a.status ≠ "available")] at he
        exact Except.noConfusion he
      · simp only [reserve, hf, if_pos (by simp [hs] : a.status ≠ "available")] at he
        injection he with h1
        exact h1.symm
  · intro buyers hav hne
    cases buyers with
    | nil => exact absurd rfl hne
    | cons b0 rest =>
      obtain ⟨a, hf, hs⟩ : ∃ a, findAccount db k = some a ∧ a.status = "available" := by
        unfold accountStatusOf at hav
        cases hfa : findAccount db k <;> rw [hfa] at hav
        · cases hav
        · exact ⟨_, rfl, by simpa using hav⟩
      have hr : reserve db k b0 =
          .ok ({ db with accounts := setAccountStatus db.accounts k "pending" },
               { a with status := "pending" }) := by
        simp only [reserve, hf, if_neg (by simp [hs] : ¬ a.status ≠ "available")]
      have hafter := hok { db with accounts := setAccountStatus db.accounts k "pending" }
        { a with status := "pending" }
      simp only [reserveMany, hr]
      have hrest := reserveMany_of_not_available
        { db with accounts := setAccountStatus db.accounts k "pending" } k rest
        (by
          have hft : findAccount
              { db with accounts := setAccountStatus db.accounts k "pending" } k
              = some { a with status := "pending" } := by
            show (setAccountStatus db.accounts k "pending").find? (fun x => x.id == k)
              = some { a with status := "pending" }
            rw [find?_setAccountStatus db.accounts k k "pending", if_pos rfl]
            show (findAccount db k).map _ = _
            rw [hf]
            rfl
          simp [accountStatusOf, hft])
      rw [hrest.2]

/-- An `available` listing, for the witness. -/
def dbC1 : DB :=
  { users := [⟨3, "t3", 0⟩, ⟨7, "t7", 0⟩],
    accounts := [⟨1, 7, 500, "available", 0⟩],
    orders := [], withdrawals := [] }

/-- Claim C1 witness: among three serialized reservation attempts on an
`available` Account, exactly one succeeds. -/
theorem reserve_spec_witness :
    (reserveMany dbC1 1 [3, 4, 5]).2 = 1 :=
  (reserve_spec dbC1 1 3).2.2.2 [3, 4, 5] (by decide) (by decide)

/-! ## Claim C7 — account deletion -/

/-- Claim C7: the seller-deletion flow fails with `Forbidden` unless the
requester is the Account's owner (the bot checks ownership before issuing the
DELETE); for the owner it fails with `NotDeletable` unless the Account's
status is `available` — so a `pending` or `sold` Account is never deleted
directly; and on success — only reachable for the owner of an `available`
Account with no active orders — the Account row is hard-deleted, and the
store's `ON DELETE cascade` on `orders.account_id` removes the residual
(non-active) orders referencing it, leaving the other tables untouched. -/
theorem deleteAccount_spec (db : DB) (k requester : Nat) :
    (∀ a, findAccount db k = some a → a.owner_id ≠ requester →
      deleteAccountFlow db k requester = .error .forbidden)
  ∧ (∀ a, findAccount db k = some a → a.owner_id = requester → a.status ≠ "available" →
      deleteAccountFlow db k requester = .error .notDeletable)
  ∧ (∀ db1 a, deleteAccountFlow db k requester = .ok (db1, a) →
      a.owner_id = requester ∧ a.status = "available"
        ∧ findAccount db1 k = none
        ∧ activeOrdersFor db k = []
        ∧ db1.orders = db.orders.filter (fun x => x.account_id != k)
        ∧ db1.users = db.users ∧ db1.withdrawals = db.withdrawals) := by
  refine ⟨?_, ?_, ?_⟩
  · intro a hf hown
    simp only [deleteAccountFlow, hf, if_pos hown]
  · intro a hf hown hst
    simp only [deleteAccountFlow, hf, if_neg (by simp [hown] : ¬ a.owner_id ≠ requester)]
    simp only [deleteAccountApi, hf, if_pos hst]
  · intro db1 a hok
    cases hf : findAccount db k with
    | none =>
      simp only [deleteAccountFlow, hf] at hok
      exact Except.noConfusion hok
    | some a0 =>
      simp only [deleteAccountFlow, hf] at hok
      by_cases hown : a0.owner_id = requester
      · rw [if_neg (by simp [hown])] at hok
        by_cases hst : a0.status = "available"
        · simp only [deleteAccountApi, hf,
            if_neg (by simp [hst] : ¬ a0.status ≠ "available")] at hok
          by_cases hord : (activeOrdersFor db k).isEmpty = true
          · rw [if_neg (by simp [hord])] at hok
            injection hok with h1
            injection h1 with hdb ha
            subst hdb
            subst ha
            refine ⟨hown, hst, ?_, by simpa [List.isEmpty_iff] using hord, rfl, rfl, rfl⟩
            show (db.accounts.filter (fun x => x.id != k)).find? (fun x => x.id == k) = none
            rw [find?_filter_key Account.id db.accounts k k, if_pos rfl]
          · rw [if_pos (by simp [hord])] at hok
            exact Except.noConfusion hok
        · simp only [deleteAccountApi, hf,
            if_pos (by simp [hst] : a0.status ≠ "available")] at hok
          exact Except.noConfusion hok
      · rw [if_pos (by simp [hown])] at hok
        exact Except.noConfusion hok

/-- A reserved (`pending`) Account owned by user 7. -/
def dbC7 : DB :=
  { users := [⟨3, "t3", 0⟩, ⟨7, "t7", 0⟩],
    accounts := [⟨1, 7, 500, "pending", 0⟩],
    orders := [], withdrawals := [] }

/-- Claim C7 witness: the owner's delete attempt while the Account is
`pending` fails `NotDeletable`. -/
theorem deleteAccount_spec_witness :
    deleteAccountFlow dbC7 1 7 = .error .notDeletable :=
  (deleteAccount_spec dbC7 1 7).2.1 ⟨1, 7, 500, "pending", 0⟩
    (by decide) (by decide) (by decide)

/-! ## Claim C10 — public listings show only available accounts -/

/-- Claim C10: both `GET /accounts` and `GET /search/accounts` filter on
status `available` in the page query and in the count query, so an Account
whose status is `pending` or `sold` never appears in a returned page and is
never counted, for any page, limit, and residual search predicate. -/
theorem listings_only_available (db : DB) (P : Account → Bool) (page limit : Nat)
    (a : Account) (hna : a.status ≠ "available") :
    a ∉ (listAccountsPage db page limit).1
      ∧ (listAccountsPage db page limit).2 = (availableAccounts db).length
      ∧ a ∉ availableAccounts db
      ∧ a ∉ (searchAccountsPage db P page limit).1
      ∧ (searchAccountsPage db P page limit).2
          = (db.accounts.filter (fun x => x.status == "available" && P x)).length
      ∧ a ∉ db.accounts.filter (fun x => x.status == "available" && P x) := by
  have hmem : a ∉ availableAccounts db := by
    intro hm
    exact hna (by simpa using (List.mem_filter.mp hm).2)
  have hmemS : a ∉ db.accounts.filter (fun x => x.status == "available" && P x) := by
    intro hm
    have := (List.mem_filter.mp hm).2
    simp only [Bool.and_eq_true, beq_iff_eq] at this
    exact hna this.1
  refine ⟨?_, rfl, hmem, ?_, rfl, hmemS⟩
  · intro hm
    exact hmem (((availableAccounts db).mergeSort_perm _).mem_iff.mp
      (List.mem_of_mem_drop (List.mem_of_mem_take hm)))
  · intro hm
    exact hmemS (((db.accounts.filter
        (fun x => x.status == "available" && P x)).mergeSort_perm _).mem_iff.mp
      (List.mem_of_mem_drop (List.mem_of_mem_take hm)))

/-- A marketplace state with one available, one pending, and one sold
Account. -/
def dbC10 : DB :=
  { users := [⟨7, "t7", 0⟩],
    accounts := [⟨1, 7, 500, "available", 3⟩, ⟨2, 7, 300, "pending", 2⟩,
                 ⟨3, 7, 200, "sold", 1⟩],
    orders := [], withdrawals := [] }

/-- Claim C10 witness: the sold Account of `dbC10` is absent from page 1 of
both listing endpoints and from both totals. -/
theorem listings_only_available_witness :
    ⟨3, 7, 200, "sold", 1⟩ ∉ (listAccountsPage dbC10 1 6).1
      ∧ (listAccountsPage dbC10 1 6).2 = (availableAccounts dbC10).length :=
  ⟨(listings_only_available dbC10 (fun _ => true) 1 6 ⟨3, 7, 200, "sold", 1⟩ (by decide)).1,
   (listings_only_available dbC10 (fun _ => true) 1 6 ⟨3, 7, 200, "sold", 1⟩ (by decide)).2.1⟩

/-! ## Claim C4 — order completion and seller credit -/

/-- Characterization of a successful `PUT /orders/:id`. -/
theorem updateOrderStatus_ok (db : DB) (k : Nat) (st : String) (db1 : DB) (o : Order)
    (h : updateOrderStatus db k st = .ok (db1, o)) :
    ∃ o0, findOrder db k = some o0 ∧ o = { o0 with status := st }
      ∧ ((st == "completed") = true ∧
            db1 = ⟨db.users, setAccountStatus db.accounts o0.account_id "sold",
                   setOrderStatus db.orders k st, db.withdrawals⟩
        ∨ (st == "completed") = false ∧
            db1 = ⟨db.users, db.accounts, setOrderStatus db.orders k st, db.withdrawals⟩) := by
  simp only [updateOrderStatus] at h
  by_cases hst : st = ""
  · rw [if_pos hst] at h
    exact Except.noConfusion h
  · rw [if_neg hst] at h
    cases hf : findOrder db k <;> simp only [hf] at h
    · exact Except.noConfusion h
    · rename_i o0
      by_cases hc : (st == "completed") = true
      · rw [if_pos hc] at h
        injection h with h1
        injection h1 with hdb ho
        exact ⟨o0, rfl, ho.symm, Or.inl ⟨hc, hdb.symm⟩⟩
      · rw [if_neg hc] at h
        injection h with h1
        injection h1 with hdb ho
        exact ⟨o0, rfl, ho.symm, Or.inr ⟨by simpa using hc, hdb.symm⟩⟩

/-- `balanceOf` only reads the users table. -/
theorem balanceOf_congr_users (db1 db2 : DB) (u : Nat) (h : db1.users = db2.users) :
    balanceOf db1 u = balanceOf db2 u := by
  unfold balanceOf findUser
  rw [h]

/-- The effect of one non-interleaved `transfer_complete` run on any user's
balance: exactly the logged credit is added. -/
theorem completeOrderFull_balance (db : DB) (oid : Nat) (u : Nat) :
    balanceOf (completeOrderFull db oid).1 u =
      balanceOf db u +
        (match (completeOrderFull db oid).2 with
         | some (s, p) => if s = u then p else 0
         | none => 0) := by
  cases hupd : updateOrderStatus db oid "completed" with
  | error e => simp [completeOrderFull, hupd]
  | ok p =>
    obtain ⟨db1, o⟩ := p
    have husers : db1.users = db.users := by
      obtain ⟨o0, _, _, hcase⟩ := updateOrderStatus_ok db oid "completed" db1 o hupd
      rcases hcase with ⟨_, hdb⟩ | ⟨_, hdb⟩ <;> rw [hdb]
    have hbal1 : balanceOf db1 u = balanceOf db u :=
      balanceOf_congr_users db1 db u husers
    cases hfa : findAccount db1 o.account_id with
    | none => simp [completeOrderFull, hupd, hfa, hbal1]
    | some a =>
      cases hfu : findUser db1 a.owner_id with
      | none => simp [completeOrderFull, hupd, hfa, hfu, hbal1]
      | some s =>
        simp only [completeOrderFull, hupd, hfa, hfu]
        rw [show balanceOf (setUserBalance db1 a.owner_id (s.balance + a.price)) u
            = if u = a.owner_id then s.balance + a.price else balanceOf db1 u from by
          unfold balanceOf
          rw [findUser_setUserBalance db1 a.owner_id u (s.balance + a.price)]
          by_cases hu : u = a.owner_id
          · rw [if_pos hu, if_pos hu, hu, hfu]
            simp
          · rw [if_neg hu, if_neg hu]]
        by_cases hu : u = a.owner_id
        · rw [if_pos hu]
          have hsb : balanceOf db1 u = s.balance := by
            unfold balanceOf
            rw [hu, hfu]
          rw [if_pos hu.symm, ← hbal1, hsb]
        · rw [if_neg hu, if_neg (fun hc => hu hc.symm), hbal1]
          omega

/-- Sequential (serialized) `transfer_complete` runs add exactly the sum of
the logged credits to every user's balance. -/
theorem execSeq_balance (oids : List Nat) (db : DB) (u : Nat) :
    balanceOf (execSeq db oids).1 u = balanceOf db u + creditSum u (execSeq db oids).2 := by
  induction oids generalizing db with
  | nil => simp [execSeq, creditSum]
  | cons oid rest ih =>
    have h1 := completeOrderFull_balance db oid u
    have ih1 := ih (completeOrderFull db oid).1
    cases hc : (completeOrderFull db oid).2 with
    | none =>
      simp only [hc] at h1
      simp only [execSeq, hc]
      rw [ih1]
      omega
    | some c =>
      obtain ⟨s, p⟩ := c
      simp only [hc] at h1
      simp only [execSeq, hc]
      rw [ih1]
      simp only [creditSum]
      by_cases hs : s = u
      · rw [if_pos hs] at h1 ⊢
        omega
      · rw [if_neg hs] at h1 ⊢
        omega

/-- Claim C4 (amended): a successful order completion marks the Order
`completed` and the referenced Account `sold`, and credits the Account's
price onto the seller's balance; for **serialized** (non-overlapping)
sequences of completions the final balance of every user equals the initial
balance plus the sum of the credited account prices.  (The credit itself is a
separate read-then-write over the store, not part of the PUT transaction, so
only serialized runs enjoy the sum law — see the interleaved
counterexample.) -/
theorem completeOrder_spec :
    (∀ db oids u, balanceOf (execSeq db oids).1 u
        = balanceOf db u + creditSum u (execSeq db oids).2)
  ∧ (∀ db k db1 o, updateOrderStatus db k "completed" = .ok (db1, o) →
      orderStatusOf db1 k = some "completed"
        ∧ accountStatusOf db1 o.account_id
            = (accountStatusOf db o.account_id).map (fun _ => "sold")
        ∧ db1.users = db.users)
  ∧ (∀ db oid db1 o a s, updateOrderStatus db oid "completed" = .ok (db1, o) →
      findAccount db1 o.account_id = some a → findUser db1 a.owner_id = some s →
      completeOrderFull db oid
          = (setUserBalance db1 a.owner_id (s.balance + a.price), some (a.owner_id, a.price))
        ∧ balanceOf (completeOrderFull db oid).1 a.owner_id
            = balanceOf db a.owner_id + a.price) := by
  refine ⟨fun db oids u => execSeq_balance oids db u, ?_, ?_⟩
  · intro db k db1 o hupd
    obtain ⟨o0, hf, ho, hcase⟩ := updateOrderStatus_ok db k "completed" db1 o hupd
    rcases hcase with ⟨_, hdb⟩ | ⟨hc, _⟩
    · subst hdb
      subst ho
      refine ⟨?_, ?_, rfl⟩
      · unfold orderStatusOf findOrder
        show ((setOrderStatus db.orders k "completed").find? (fun x => x.id == k)).map _ = _
        rw [find?_setOrderStatus db.orders k k "completed", if_pos rfl]
        unfold findOrder at hf
        rw [hf]
        rfl
      · exact accountStatusOf_set db db.users (setOrderStatus db.orders k "completed")
          db.withdrawals o0.account_id o0.account_id "sold" ▸ by rw [if_pos rfl]
    · exact absurd hc (by decide)
  · intro db oid db1 o a s hupd hfa hfu
    constructor
    · simp only [completeOrderFull, hupd, hfa, hfu]
    · have h1 := completeOrderFull_balance db oid a.owner_id
      have hfull : (completeOrderFull db oid).2 = some (a.owner_id, a.price) := by
        simp only [completeOrderFull, hupd, hfa, hfu]
      simp only [hfull] at h1
      rw [h1]
      simp

/-- Two pending Orders on two Accounts of the same seller (balance 0,
prices 500 and 300). -/
def dbC4 : DB :=
  { users := [⟨7, "t7", 0⟩, ⟨3, "t3", 0⟩],
    accounts := [⟨1, 7, 500, "pending", 0⟩, ⟨2, 7, 300, "pending", 0⟩],
    orders := [⟨10, 3, 1, 500, "R1", "pending"⟩, ⟨11, 3, 2, 300, "R2", "pending"⟩],
    withdrawals := [] }

/-- Claim C4 counterexample: the seller credit is a read-then-write across
separate requests, so two interleaved `transfer_complete` runs (both read
balance 0, then write 500 and then 300) leave the seller with 300 instead of
0 + 500 + 300 — a lost update, refuting "regardless of interleaving". -/
theorem completeOrder_lost_update_cex :
    balanceOf (runSched dbC4 (initProc 10) (initProc 11)
        [true, false, true, false, true, false]).1 7 = 300
      ∧ (300 : Int) ≠ 0 + (500 + 300) := by decide

/-- A single pending order for the witness of the completion effects. -/
def dbC4w : DB :=
  { users := [⟨7, "t7", 10⟩, ⟨3, "t3", 0⟩],
    accounts := [⟨1, 7, 500, "pending", 0⟩],
    orders := [⟨10, 3, 1, 500, "R1", "pending"⟩],
    withdrawals := [] }

/-- The state after `PUT /orders/10 {status: completed}` on `dbC4w`. -/
def dbC4w1 : DB :=
  { users := [⟨7, "t7", 10⟩, ⟨3, "t3", 0⟩],
    accounts := [⟨1, 7, 500, "sold", 0⟩],
    orders := [⟨10, 3, 1, 500, "R1", "completed"⟩],
    withdrawals := [] }

/-- Claim C4 witness: completing the order of `dbC4w` marks it `completed`,
marks the account `sold`, and credits the 500 price onto the seller. -/
theorem completeOrder_spec_witness :
    (orderStatusOf dbC4w1 10 = some "completed"
        ∧ accountStatusOf dbC4w1 1 = (accountStatusOf dbC4w 1).map (fun _ => "sold"))
      ∧ balanceOf (completeOrderFull dbC4w 10).1 7 = balanceOf dbC4w 7 + 500 :=
  ⟨⟨(completeOrder_spec.2.1 dbC4w 10 dbC4w1 ⟨10, 3, 1, 500, "R1", "completed"⟩
        (by decide)).1,
    (completeOrder_spec.2.1 dbC4w 10 dbC4w1 ⟨10, 3, 1, 500, "R1", "completed"⟩
        (by decide)).2.1⟩,
   (completeOrder_spec.2.2 dbC4w 10 dbC4w1 ⟨10, 3, 1, 500, "R1", "completed"⟩
        ⟨1, 7, 500, "sold", 0⟩ ⟨7, "t7", 10⟩ (by decide) (by decide) (by decide)).2⟩

/-! ## Claim C5 — the account status transition graph -/

/-- `accountStatusOf` ignores every table except accounts. -/
theorem status_eq_of_same_accounts (db db2 : DB) (k : Nat) (h : db2.accounts = db.accounts) :
    accountStatusOf db2 k = accountStatusOf db k := by
  unfold accountStatusOf findAccount
  rw [h]

/-- Characterization of a successful reservation. -/
theorem reserve_ok (db : DB) (k b : Nat) (db1 : DB) (a1 : Account)
    (h : reserve db k b = .ok (db1, a1)) :
    ∃ a, findAccount db k = some a ∧ a.status = "available"
      ∧ a1 = { a with status := "pending" }
      ∧ db1 = ⟨db.users, setAccountStatus db.accounts k "pending",
               db.orders, db.withdrawals⟩ := by
  cases hf : findAccount db k with
  | none =>
    simp only [reserve, hf] at h
    exact Except.noConfusion h
  | some a =>
    by_cases hs : a.status = "available"
    · simp only [reserve, hf, if_neg (by simp [hs] : ¬ a.status ≠ "available")] at h
      injection h with h1
      injection h1 with hdb ha
      exact ⟨a, rfl, hs, ha.symm, hdb.symm⟩
    · simp only [reserve, hf, if_pos (by simp [hs] : a.status ≠ "available")] at h
      exact Except.noConfusion h

/-- Characterization of a successful cancellation. -/
theorem cancelOrder_ok (db : DB) (k : Nat) (db1 : DB) (o : Order)
    (h : cancelOrder db k = .ok (db1, o)) :
    findOrder db k = some o
      ∧ db1 = ⟨db.users, setAccountStatus db.accounts o.account_id "available",
               db.orders.filter (fun x => x.id != k), db.withdrawals⟩ := by
  cases hf : findOrder db k with
  | none =>
    simp only [cancelOrder, hf] at h
    exact Except.noConfusion h
  | some o0 =>
    simp only [cancelOrder, hf] at h
    injection h with h1
    injection h1 with hdb ho
    subst ho
    exact ⟨rfl, hdb.symm⟩

/-- A successful flow deletion filters the accounts table and, through the
store's `ON DELETE cascade`, the orders referencing the account. -/
theorem deleteAccountFlow_ok_accounts (db : DB) (k r : Nat) (db1 : DB) (a : Account)
    (h : deleteAccountFlow db k r = .ok (db1, a)) :
    db1 = ⟨db.users, db.accounts.filter (fun x => x.id != k),
           db.orders.filter (fun x => x.account_id != k), db.withdrawals⟩ := by
  cases hf : findAccount db k with
  | none =>
    simp only [deleteAccountFlow, hf] at h
    exact Except.noConfusion h
  | some a0 =>
    simp only [deleteAccountFlow, hf] at h
    by_cases hown : a0.owner_id = r
    · rw [if_neg (by simp [hown])] at h
      by_cases hst : a0.status = "available"
      · simp only [deleteAccountApi, hf,
          if_neg (by simp [hst] : ¬ a0.status ≠ "available")] at h
        by_cases hord : (activeOrdersFor db k).isEmpty = true
        · rw [if_neg (by simp [hord])] at h
          injection h with h1
          injection h1 with hdb ha
          exact hdb.symm
        · rw [if_pos (by simp [hord])] at h
          exact Except.noConfusion h
      · simp only [deleteAccountApi, hf,
          if_pos (by simp [hst] : a0.status ≠ "available")] at h
        exact Except.noConfusion h
    · rw [if_pos (by simp [hown])] at h
      exact Except.noConfusion h

/-- A successful withdrawal leaves the accounts table untouched. -/
theorem withdraw_ok_accounts (db : DB) (uid : Nat) (amt : Int) (db1 : DB) (w : Withdrawal)
    (h : withdraw db uid amt = .ok (db1, w)) : db1.accounts = db.accounts := by
  cases hu : findUser db uid with
  | none =>
    simp only [withdraw, hu] at h
    exact Except.noConfusion h
  | some u =>
    by_cases hb : u.balance < amt
    · simp only [withdraw, hu, if_pos hb] at h
      exact Except.noConfusion h
    · simp only [withdraw, hu, if_neg hb] at h
      injection h with h1
      injection h1 with hdb hw
      rw [← hdb]
      rfl

/-- Claim C5 (amended): across all operations, an Account's status only ever
changes by one of these four edges — `available → pending` via reserve,
`? → sold` via an order-status update to `completed`, `? → available` via
order cancellation (from **any** prior status, since cancellation never
checks the order), and `pending → available` via reservation expiry.  In
particular `sold` and `available` are only ever *entered* through the update
to `completed`, through cancellation/expiry, or at creation — but because
cancellation is unguarded, `sold → available` is among the reachable edges
(see the counterexample), unlike the graph the claim states. -/
theorem account_status_transitions (db : DB) (op : Op) (k : Nat) (s s1 : String)
    (h0 : accountStatusOf db k = some s)
    (h1 : accountStatusOf (applyOp db op) k = some s1)
    (hne : s ≠ s1) :
    (∃ b, op = .reserve k b ∧ s = "available" ∧ s1 = "pending")
    ∨ (∃ oid, op = .updateOrder oid "completed" ∧ s1 = "sold")
    ∨ (∃ oid, op = .cancelOrder oid ∧ s1 = "available")
    ∨ (op = .expiry k ∧ s = "pending" ∧ s1 = "available") := by
  cases op with
  | reserve k2 b =>
    cases hr : reserve db k2 b with
    | error e =>
      simp only [applyOp, hr] at h1
      rw [h0] at h1
      exact absurd (Option.some.inj h1) hne
    | ok p =>
      obtain ⟨db1, a1⟩ := p
      simp only [applyOp, hr] at h1
      obtain ⟨a, hf, hs, ha1, hdb⟩ := reserve_ok db k2 b db1 a1 hr
      subst hdb
      rw [accountStatusOf_set db db.users db.orders db.withdrawals k2 k "pending"] at h1
      by_cases hk : k = k2
      · rw [if_pos hk, h0] at h1
        simp only [Option.map_some'] at h1
        have hsav : s = "available" := by
          rw [hk] at h0
          rw [show accountStatusOf db k2 = some a.status from by
            simp [accountStatusOf, hf]] at h0
          exact (Option.some.inj h0) ▸ hs
        subst hk
        exact Or.inl ⟨b, rfl, hsav, (Option.some.inj h1).symm⟩
      · rw [if_neg hk, h0] at h1
        exact absurd (Option.some.inj h1) hne
  | createOrder b acc amt r =>
    have heq : accountStatusOf (applyOp db (.createOrder b acc amt r)) k
        = accountStatusOf db k :=
      status_eq_of_same_accounts db _ k rfl
    rw [heq, h0] at h1
    exact absurd (Option.some.inj h1) hne
  | updateOrder oid st =>
    cases hr : updateOrderStatus db oid st with
    | error e =>
      simp only [applyOp, hr] at h1
      rw [h0] at h1
      exact absurd (Option.some.inj h1) hne
    | ok p =>
      obtain ⟨db1, o1⟩ := p
      simp only [applyOp, hr] at h1
      obtain ⟨o0, hf, ho, hcase⟩ := updateOrderStatus_ok db oid st db1 o1 hr
      rcases hcase with ⟨hc, hdb⟩ | ⟨hc, hdb⟩
      · subst hdb
        rw [accountStatusOf_set db db.users (setOrderStatus db.orders oid st)
          db.withdrawals o0.account_id k "sold"] at h1
        by_cases hk : k = o0.account_id
        · rw [if_pos hk, h0] at h1
          simp only [Option.map_some'] at h1
          have hst : st = "completed" := by simpa using hc
          subst hst
          exact Or.inr (Or.inl ⟨oid, rfl, (Option.some.inj h1).symm⟩)
        · rw [if_neg hk, h0] at h1
          exact absurd (Option.some.inj h1) hne
      · subst hdb
        rw [status_eq_of_same_accounts db
          ⟨db.users, db.accounts, setOrderStatus db.orders oid st, db.withdrawals⟩
          k rfl, h0] at h1
        exact absurd (Option.some.inj h1) hne
  | cancelOrder oid =>
    cases hr : cancelOrder db oid with
    | error e =>
      simp only [applyOp, hr] at h1
      rw [h0] at h1
      exact absurd (Option.some.inj h1) hne
    | ok p =>
      obtain ⟨db1, o1⟩ := p
      simp only [applyOp, hr] at h1
      obtain ⟨hf, hdb⟩ := cancelOrder_ok db oid db1 o1 hr
      subst hdb
      rw [accountStatusOf_set db db.users (db.orders.filter (fun x => x.id != oid))
        db.withdrawals o1.account_id k "available"] at h1
      by_cases hk : k = o1.account_id
      · rw [if_pos hk, h0] at h1
        simp only [Option.map_some'] at h1
        exact Or.inr (Or.inr (Or.inl ⟨oid, rfl, (Option.some.inj h1).symm⟩))
      · rw [if_neg hk, h0] at h1
        exact absurd (Option.some.inj h1) hne
  | deleteAccount k2 r =>
    cases hr : deleteAccountFlow db k2 r with
    | error e =>
      simp only [applyOp, hr] at h1
      rw [h0] at h1
      exact absurd (Option.some.inj h1) hne
    | ok p =>
      obtain ⟨db1, a1⟩ := p
      simp only [applyOp, hr] at h1
      have hdb := deleteAccountFlow_ok_accounts db k2 r db1 a1 hr
      subst hdb
      rw [accountStatusOf_del db db.users
        (db.orders.filter (fun x => x.account_id != k2)) db.withdrawals k2 k] at h1
      by_cases hk : k = k2
      · rw [if_pos hk] at h1
        exact Option.noConfusion h1
      · rw [if_neg hk, h0] at h1
        exact absurd (Option.some.inj h1) hne
  | expiry k2 =>
    cases hf : findAccount db k2 with
    | none =>
      simp only [applyOp, reservationExpiry, hf] at h1
      rw [h0] at h1
      exact absurd (Option.some.inj h1) hne
    | some a =>
      by_cases hst : a.status = "pending"
      · by_cases hpe : (pendingOrdersFor db k2).isEmpty = true
        · simp only [applyOp, reservationExpiry, hf] at h1
          rw [if_pos (by simp [hst]), if_pos hpe] at h1
          rw [accountStatusOf_set db db.users db.orders db.withdrawals k2 k "available"] at h1
          by_cases hk : k = k2
          · rw [if_pos hk, h0] at h1
            simp only [Option.map_some'] at h1
            have hsp : s = "pending" := by
              rw [hk] at h0
              rw [show accountStatusOf db k2 = some a.status from by
                simp [accountStatusOf, hf]] at h0
              exact (Option.some.inj h0) ▸ hst
            subst hk
            exact Or.inr (Or.inr (Or.inr ⟨rfl, hsp, (Option.some.inj h1).symm⟩))
          · rw [if_neg hk, h0] at h1
            exact absurd (Option.some.inj h1) hne
        · simp only [applyOp, reservationExpiry, hf] at h1
          rw [if_pos (by simp [hst]), if_neg hpe, h0] at h1
          exact absurd (Option.some.inj h1) hne
      · simp only [applyOp, reservationExpiry, hf] at h1
        rw [if_neg (by simp [hst]), h0] at h1
        exact absurd (Option.some.inj h1) hne
  | cleanup k2 =>
    have h1' : accountStatusOf
        ⟨db.users, db.accounts.filter (fun x => x.id != k2),
         db.orders.filter (fun o => o.account_id != k2), db.withdrawals⟩ k = some s1 := h1
    rw [accountStatusOf_del db db.users
      (db.orders.filter (fun o => o.account_id != k2)) db.withdrawals k2 k] at h1'
    by_cases hk : k = k2
    · rw [if_pos hk] at h1'
      exact Option.noConfusion h1'
    · rw [if_neg hk, h0] at h1'
      exact absurd (Option.some.inj h1') hne
  | withdraw uid amt =>
    cases hr : withdraw db uid amt with
    | error e =>
      simp only [applyOp, hr] at h1
      rw [h0] at h1
      exact absurd (Option.some.inj h1) hne
    | ok p =>
      obtain ⟨db1, w⟩ := p
      simp only [applyOp, hr] at h1
      rw [status_eq_of_same_accounts db db1 k
        (withdraw_ok_accounts db uid amt db1 w hr), h0] at h1
      exact absurd (Option.some.inj h1) hne

/-- A sold Account still referenced by its completed Order, inside the
post-completion grace window. -/
def dbC5 : DB :=
  { users := [⟨3, "t3", 0⟩, ⟨7, "t7", 500⟩],
    accounts := [⟨1, 7, 500, "sold", 0⟩],
    orders := [⟨5, 3, 1, 500, "R", "completed"⟩],
    withdrawals := [] }

/-- Claim C5 counterexample: cancelling the already-completed Order of a
sold Account moves the Account `sold → available` — an edge the claim says is
unreachable. -/
theorem sold_to_available_reachable_cex :
    accountStatusOf dbC5 1 = some "sold"
      ∧ accountStatusOf (applyOp dbC5 (.cancelOrder 5)) 1 = some "available" := by
  decide

/-- Claim C5 witness: the transition taken in `dbC5` is classified by the
amended transition theorem as a cancellation edge. -/
theorem account_status_transitions_witness :
    (∃ b, Op.cancelOrder 5 = .reserve 1 b ∧ "sold" = "available" ∧ "available" = "pending")
    ∨ (∃ oid, Op.cancelOrder 5 = .updateOrder oid "completed" ∧ "available" = "sold")
    ∨ (∃ oid, Op.cancelOrder 5 = .cancelOrder oid ∧ "available" = "available")
    ∨ (Op.cancelOrder 5 = .expiry 1 ∧ "sold" = "pending" ∧ "available" = "available") :=
  account_status_transitions dbC5 (.cancelOrder 5) 1 "sold" "available"
    (by decide) (by decide) (by decide)
